import Mathlib

/-!
Shallow embedding of the ragversion version-tracking core
(src/ragversion/detector.py, src/ragversion/tracker.py,
src/ragversion/chunking/detector.py, src/ragversion/models.py,
src/ragversion/storage/sqlite.py), together with theorems settling the
frozen claims about it.

Modelling conventions:
- UUIDs are modelled as natural numbers drawn from a fresh-id counter held
  in the storage state (uuid4 only needs freshness).
- Timestamps (datetime.utcnow()) are modelled as a natural number `now`
  passed to each operation.
- The cryptographic hash (hashlib, sha256 by default) is modelled as an
  arbitrary function `hashFn : String → String` carried by the detector
  configuration; no claim depends on the concrete digest.
- File paths are modelled as already-normalized strings: the code's
  str(Path(p).absolute()) normalization is the identity here.
- The opaque free-form metadata dictionaries and created_at/created_by
  fields that no claim mentions are omitted from the records.
- The storage backend is modelled as in-memory lists, following the
  contract of BaseStorage as implemented by MockStorage and SQLiteStorage
  (insertion-ordered rows, lookup by path / id / version number).
-/

/-- Change kinds, from models.ChangeType. -/
inductive ChangeType where
  | created
  | modified
  | deleted
  | restored
deriving DecidableEq, Repr

/-- Tracked document row, from models.Document (metadata map omitted). -/
structure Document where
  id : Nat
  file_path : String
  file_name : String
  file_type : String
  file_size : Nat
  content_hash : String
  created_at : Nat
  updated_at : Nat
  version_count : Nat
  current_version : Nat
deriving DecidableEq, Repr

/-- Immutable version row, from models.Version (metadata and created_by omitted).
The optional content field also stands for the separately stored content blob:
MockStorage.create_version records version.content under the version id, and
get_content reads it back. -/
structure Version where
  id : Nat
  document_id : Nat
  version_number : Nat
  content_hash : String
  content : Option String
  file_size : Nat
  change_type : ChangeType
deriving DecidableEq, Repr

/-- Transient change event, from models.ChangeEvent (timestamp and metadata omitted). -/
structure ChangeEvent where
  document_id : Nat
  version_id : Nat
  file_path : String
  file_name : String
  change_type : ChangeType
  version_number : Nat
  content_hash : String
  previous_hash : Option String
  file_size : Nat
deriving DecidableEq, Repr

/-- In-memory storage state: the documents and versions tables plus the
fresh-id counter standing in for uuid4. -/
structure StorageState where
  documents : List Document
  versions : List Version
  nextId : Nat
deriving DecidableEq, Repr

def StorageState.empty : StorageState := { documents := [], versions := [], nextId := 0 }

/-- storage.get_document_by_path: the unique document with this path
(first match in row order). -/
def get_document_by_path (st : StorageState) (p : String) : Option Document :=
  st.documents.find? (fun d => d.file_path == p)

/-- storage.create_document: insert a new document row. -/
def create_document (st : StorageState) (d : Document) : StorageState :=
  { st with documents := st.documents ++ [d] }

/-- storage.create_version: insert a new version row (content blob kept inline). -/
def create_version (st : StorageState) (v : Version) : StorageState :=
  { st with versions := st.versions ++ [v] }

/-- storage.update_document: replace the document row with the same id. -/
def update_document (st : StorageState) (d : Document) : StorageState :=
  { st with documents := st.documents.map (fun x => if x.id = d.id then d else x) }

/-- storage.get_document. -/
def get_document (st : StorageState) (i : Nat) : Option Document :=
  st.documents.find? (fun d => d.id == i)

/-- storage.get_version_by_number. -/
def get_version_by_number (st : StorageState) (docId n : Nat) : Option Version :=
  st.versions.find? (fun v => v.document_id == docId && v.version_number == n)

/-- storage.get_content: content blob addressed by version id. -/
def get_content (st : StorageState) (versionId : Nat) : Option String :=
  (st.versions.find? (fun v => v.id == versionId)).bind (fun v => v.content)

/-- storage.delete_version: remove the version row (and its content/chunks). -/
def delete_version (st : StorageState) (versionId : Nat) : StorageState :=
  { st with versions := st.versions.filter (fun v => v.id != versionId) }

/-- Content-source entry: the outcome of looking a path up on disk.
size models os.path.getsize; content is the text the parser extracts;
parses is false when content extraction would raise. -/
structure FileInfo where
  content : String
  size : Nat
  parses : Bool
deriving DecidableEq, Repr

/-- The file system visible to the detector: path keyed entries. -/
structure FileSystem where
  files : List (String × FileInfo)
deriving DecidableEq, Repr

/-- os.path.exists / read access for a path. -/
def FileSystem.lookup (fs : FileSystem) (p : String) : Option FileInfo :=
  (fs.files.find? (fun e => e.1 == p)).map (fun e => e.2)

/-- aiofiles write during restore: replace or add the entry for the path. -/
def FileSystem.write (fs : FileSystem) (p : String) (text : String) : FileSystem :=
  if (fs.files.find? (fun e => e.1 == p)).isSome then
    { files := fs.files.map (fun e => if e.1 = p then (p, ⟨text, text.length, true⟩) else e) }
  else
    { files := fs.files ++ [(p, ⟨text, text.length, true⟩)] }

/-- Errors the tracking pipeline can raise, from exceptions.py plus the
builtin Python exceptions tracker.py raises. -/
inductive TrackError where
  | parsingError (path : String)
  | storageError
  | documentNotFoundError (docId : Nat)
  | versionNotFoundError (docId n : Nat)
  | fileNotFoundError (path : String)
  | valueError
  | attributeError (attr : String)
  | contentMissing (n : Nat)
deriving DecidableEq, Repr

/-- Split a character list on a separator character (structural model of
str.split, used for the path helpers below). -/
def split_on_char (c : Char) (l : List Char) : List (List Char) :=
  l.foldr
    (fun ch acc =>
      if ch = c then [] :: acc
      else
        match acc with
        | [] => [[ch]]
        | g :: gs => (ch :: g) :: gs)
    [[]]

/-- Path.name: final path component. -/
def path_name (p : String) : String :=
  String.mk ((split_on_char '/' p.data).getLastD p.data)

/-- Path.suffix or "unknown", as in _handle_creation's file_type field. -/
def path_suffix_or_unknown (p : String) : String :=
  let n := path_name p
  match (split_on_char '.' n.data).reverse with
  | ext :: _ :: _ => String.mk ('.' :: ext)
  | _ => "unknown"

/-- Detector configuration, mirroring exactly the attributes
ChangeDetector.__init__ assigns: store_content, max_file_size_bytes and the
hash function selected by hash_algorithm (the storage handle is passed
explicitly to each operation here). Note there is no max_file_size_mb
attribute: __init__ stores max_file_size_mb * 1024 * 1024 under
max_file_size_bytes only. -/
structure ChangeDetector where
  store_content : Bool
  max_file_size_bytes : Nat
  hashFn : String → String

/-- ChangeDetector._parse_file: extract text, raising ParsingError on failure. -/
def parse_file (path : String) (info : FileInfo) : Except TrackError String :=
  if info.parses then .ok info.content else .error (.parsingError path)

/-- ChangeDetector._handle_creation. -/
def handle_creation (cfg : ChangeDetector) (st : StorageState) (now : Nat)
    (file_path content content_hash : String) (file_size : Nat) :
    StorageState × Option ChangeEvent :=
  let docId := st.nextId
  let document : Document :=
    { id := docId, file_path := file_path, file_name := path_name file_path
      file_type := path_suffix_or_unknown file_path, file_size := file_size
      content_hash := content_hash, created_at := now, updated_at := now
      version_count := 1, current_version := 1 }
  let st := create_document { st with nextId := st.nextId + 1 } document
  let verId := st.nextId
  let version : Version :=
    { id := verId, document_id := document.id, version_number := 1
      content_hash := content_hash
      content := if cfg.store_content then some content else none
      file_size := file_size, change_type := .created }
  let st := create_version { st with nextId := st.nextId + 1 } version
  (st, some { document_id := document.id, version_id := verId, file_path := file_path
              file_name := path_name file_path, change_type := .created
              version_number := 1, content_hash := content_hash
              previous_hash := none, file_size := file_size })

/-- ChangeDetector._handle_modification. The Python mutates existing_doc in
place (content_hash, file_size, version_count, current_version, updated_at)
before calling update_document, and the ChangeEvent constructed afterwards
reads previous_hash from that same, already mutated, existing_doc object;
the rebinding of existing_doc below reproduces this. -/
def handle_modification (cfg : ChangeDetector) (st : StorageState) (now : Nat)
    (existing_doc : Document) (content content_hash : String) (file_size : Nat) :
    StorageState × Option ChangeEvent :=
  let new_version_number := existing_doc.current_version + 1
  let existing_doc : Document :=
    { existing_doc with
      content_hash := content_hash
      file_size := file_size
      version_count := existing_doc.version_count + 1
      current_version := new_version_number
      updated_at := now }
  let st := update_document st existing_doc
  let verId := st.nextId
  let version : Version :=
    { id := verId, document_id := existing_doc.id, version_number := new_version_number
      content_hash := content_hash
      content := if cfg.store_content then some content else none
      file_size := file_size, change_type := .modified }
  let st := create_version { st with nextId := st.nextId + 1 } version
  (st, some { document_id := existing_doc.id, version_id := verId
              file_path := existing_doc.file_path, file_name := existing_doc.file_name
              change_type := .modified, version_number := new_version_number
              content_hash := content_hash
              previous_hash := some existing_doc.content_hash
              file_size := file_size })

/-- ChangeDetector._handle_deletion: create the deletion version first, then
bump the document (content_hash untouched). -/
def handle_deletion (st : StorageState) (now : Nat) (existing_doc : Document) :
    StorageState × Option ChangeEvent :=
  let new_version_number := existing_doc.current_version + 1
  let verId := st.nextId
  let version : Version :=
    { id := verId, document_id := existing_doc.id, version_number := new_version_number
      content_hash := existing_doc.content_hash, content := none
      file_size := 0, change_type := .deleted }
  let st := create_version { st with nextId := st.nextId + 1 } version
  let existing_doc : Document :=
    { existing_doc with
      version_count := existing_doc.version_count + 1
      current_version := new_version_number
      updated_at := now }
  let st := update_document st existing_doc
  (st, some { document_id := existing_doc.id, version_id := verId
              file_path := existing_doc.file_path, file_name := existing_doc.file_name
              change_type := .deleted, version_number := new_version_number
              content_hash := existing_doc.content_hash
              previous_hash := some existing_doc.content_hash
              file_size := 0 })

/-- ChangeDetector.detect_change: deletion handling for missing paths, size
ceiling, parsing, hashing, then creation / modification / no-op dispatch on
the stored document and its hash. -/
def detect_change (cfg : ChangeDetector) (st : StorageState) (fs : FileSystem)
    (now : Nat) (file_path : String) :
    Except TrackError (StorageState × Option ChangeEvent) :=
  let normalized_path := file_path
  match fs.lookup file_path with
  | none =>
    match get_document_by_path st normalized_path with
    | some existing_doc => .ok (handle_deletion st now existing_doc)
    | none => .ok (st, none)
  | some info =>
    if info.size > cfg.max_file_size_bytes then
      .error (.parsingError file_path)
    else
      match parse_file file_path info with
      | .error e => .error e
      | .ok content =>
        let content_hash := cfg.hashFn content
        match get_document_by_path st normalized_path with
        | none =>
          .ok (handle_creation cfg st now normalized_path content content_hash info.size)
        | some existing_doc =>
          if existing_doc.content_hash ≠ content_hash then
            .ok (handle_modification cfg st now existing_doc content content_hash info.size)
          else
            .ok (st, none)

/-- ChangeDetector.restore_version. Python checks the retrieved content with
a truthiness test (if not content), so both a missing blob and an empty
string raise; and the ChangeEvent again reads previous_hash from the
document object after its content_hash was already overwritten with the
restored hash. -/
def restore_version (cfg : ChangeDetector) (st : StorageState) (fs : FileSystem)
    (now : Nat) (document_id version_number : Nat) (target_path : Option String) :
    Except TrackError (FileSystem × StorageState × String × ChangeEvent) :=
  match get_document st document_id with
  | none => .error (.documentNotFoundError document_id)
  | some document =>
    match get_version_by_number st document_id version_number with
    | none => .error (.versionNotFoundError document_id version_number)
    | some version =>
      match get_content st version.id with
      | none => .error (.contentMissing version_number)
      | some content =>
        if content = "" then .error (.contentMissing version_number)
        else
          let restore_path := target_path.getD document.file_path
          let fs := fs.write restore_path content
          let new_version_number := document.current_version + 1
          let verId := st.nextId
          let restore_ver : Version :=
            { id := verId, document_id := document.id
              version_number := new_version_number
              content_hash := version.content_hash
              content := if cfg.store_content then some content else none
              file_size := version.file_size, change_type := .restored }
          let st := create_version { st with nextId := st.nextId + 1 } restore_ver
          let document : Document :=
            { document with
              content_hash := version.content_hash
              file_size := version.file_size
              version_count := document.version_count + 1
              current_version := new_version_number
              updated_at := now }
          let st := update_document st document
          .ok (fs, st, restore_path,
            { document_id := document.id, version_id := verId
              file_path := restore_path, file_name := document.file_name
              change_type := .restored, version_number := new_version_number
              content_hash := version.content_hash
              previous_hash := some document.content_hash
              file_size := version.file_size })

/-- Insert into a list kept in descending key order. -/
def insertDesc (key : α → Nat) (x : α) : List α → List α
  | [] => [x]
  | y :: ys => if key y ≤ key x then x :: y :: ys else y :: insertDesc key x ys

/-- Sort a list into descending key order (models the SQL ORDER BY ... DESC). -/
def sortDesc (key : α → Nat) : List α → List α
  | [] => []
  | x :: xs => insertDesc key x (sortDesc key xs)

/-- SQLiteStorage.list_versions: this document's versions, ORDER BY
version_number DESC, LIMIT limit (callers here use OFFSET 0). -/
def list_versions (st : StorageState) (docId : Nat) (limit : Nat) : List Version :=
  (sortDesc (fun v => v.version_number)
    (st.versions.filter (fun v => v.document_id == docId))).take limit

/-- SQLiteStorage.cleanup_old_versions: fetch all versions (newest first),
keep the keep_count most recent, delete the rest; returns the new state and
the number deleted. -/
def cleanup_old_versions (st : StorageState) (docId keep_count : Nat) :
    StorageState × Nat :=
  let versions := list_versions st docId 10000
  if versions.length ≤ keep_count then (st, 0)
  else
    let versions_to_delete := versions.drop keep_count
    (versions_to_delete.foldl (fun s v => delete_version s v.id) st,
      versions_to_delete.length)

/-- Modelled from the spec: the TrackResult returned by
AsyncVersionTracker.track is imported from ragversion.models but the class
is not defined anywhere under the source tree; its fields follow the spec
contract track(path, metadata) -> TrackResult{changed, event,
version_number, was_tracked} and the keyword arguments of the two
TrackResult constructor calls in tracker.track (which additionally pass
file_path). -/
structure TrackResult where
  changed : Bool
  event : Option ChangeEvent
  file_path : String
  was_tracked : Bool
  version_number : Nat
deriving DecidableEq, Repr

/-- Python attribute read self.detector.max_file_size_mb performed by
AsyncVersionTracker.track (tracker.py, the size-validation step).
ChangeDetector.__init__ assigns only storage, store_content,
max_file_size_bytes and hash_algorithm, so the detector object has no
attribute max_file_size_mb and the read raises AttributeError. -/
def ChangeDetector.attr_max_file_size_mb (_d : ChangeDetector) : Except TrackError Nat :=
  .error (.attributeError "max_file_size_mb")

/-- AsyncVersionTracker.track: empty-path check, existence check, size
validation (via the detector attribute read above), then detect_change and
packaging into a TrackResult. Listener fan-out (_emit_event) catches and
logs every callback timeout or exception, so it never alters the returned
result; it is modelled as a no-op. -/
def track (cfg : ChangeDetector) (st : StorageState) (fs : FileSystem) (now : Nat)
    (file_path : String) : Except TrackError (StorageState × TrackResult) :=
  if file_path = "" then .error .valueError
  else
    match fs.lookup file_path with
    | none => .error (.fileNotFoundError file_path)
    | some info =>
      (ChangeDetector.attr_max_file_size_mb cfg).bind (fun max_file_size_mb =>
        let max_size := max_file_size_mb * 1024 * 1024
        if info.size > max_size then .error .valueError
        else
          let existing_doc := get_document_by_path st file_path
          let was_tracked := existing_doc.isSome
          let current_version :=
            match existing_doc with
            | some d => d.current_version
            | none => 0
          (detect_change cfg st fs now file_path).map (fun r =>
            match r with
            | (st', some event) =>
              (st', { changed := true, event := some event, file_path := file_path,
                      was_tracked := was_tracked, version_number := event.version_number })
            | (st', none) =>
              (st', { changed := false, event := none, file_path := file_path,
                      was_tracked := was_tracked, version_number := current_version })))

/-- Per-file failure record, from models.FileProcessingError (message,
exception type and timestamp omitted; error_type is the category string the
batch loop assigns). -/
structure FileProcessingError where
  file_path : String
  error_type : String
deriving DecidableEq, Repr

/-- Batch outcome, from models.BatchResult (timestamps and duration omitted). -/
structure BatchResult where
  successful : List ChangeEvent
  failed : List FileProcessingError
  total_files : Nat
deriving DecidableEq, Repr

/-- BatchResult.success_count property. -/
def BatchResult.success_count (b : BatchResult) : Nat := b.successful.length

/-- BatchResult.failure_count property. -/
def BatchResult.failure_count (b : BatchResult) : Nat := b.failed.length

/-- The error category process_file records: ParsingError is "parsing",
StorageError is "storage", every other exception is "unknown". -/
def error_type_of : TrackError → String
  | .parsingError _ => "parsing"
  | .storageError => "storage"
  | _ => "unknown"

/-- The per-file loop of AsyncVersionTracker.track_directory (process_file
over the enumerated files), under the deterministic sequential schedule
that the semaphore-bounded task pool admits: files are processed in
enumeration order against the shared storage state. A successful track
appends its event to successful only when result.changed and result.event
both hold; a failure appends a FileProcessingError to failed and, when
on_error = "stop", re-raises, which ends the loop carrying the error. -/
def track_directory_go (cfg : ChangeDetector) (fs : FileSystem) (now : Nat)
    (on_error : String) :
    List String → StorageState → List ChangeEvent → List FileProcessingError →
    StorageState × List ChangeEvent × List FileProcessingError × Option TrackError
  | [], st, successful, failed => (st, successful, failed, none)
  | file_path :: rest, st, successful, failed =>
    match track cfg st fs now file_path with
    | .ok (st', result) =>
      let successful :=
        match result.event with
        | some event => if result.changed then successful ++ [event] else successful
        | none => successful
      track_directory_go cfg fs now on_error rest st' successful failed
    | .error e =>
      let failed := failed ++ [{ file_path := file_path, error_type := error_type_of e }]
      if on_error = "stop" then (st, successful, failed, some e)
      else track_directory_go cfg fs now on_error rest st successful failed

/-- AsyncVersionTracker.track_directory: directory validation, then the
per-file loop. The glob enumeration (_find_files) is abstracted into the
files argument. The Python wraps await asyncio.gather(*tasks) in
try/except Exception: pass, so the error re-raised by process_file under
on_error = "stop" is swallowed (the Option TrackError component of the loop
result is discarded below) and a BatchResult is returned regardless. -/
def track_directory (cfg : ChangeDetector) (st : StorageState) (fs : FileSystem)
    (now : Nat) (dir_exists is_dir : Bool) (files : List String) (on_error : String) :
    Except TrackError (StorageState × BatchResult) :=
  if ¬ dir_exists then .error (.fileNotFoundError "directory")
  else if ¬ is_dir then .error .valueError
  else
    let r := track_directory_go cfg fs now on_error files st [] []
    .ok (r.1, { successful := r.2.1, failed := r.2.2.1, total_files := files.length })

/-- Chunk record, from models.Chunk (id, created_at and the metadata map in
which the code stashes the chunk text are omitted). -/
structure Chunk where
  document_id : Nat
  version_id : Nat
  chunk_index : Nat
  content_hash : String
  token_count : Nat
deriving DecidableEq, Repr

/-- Python dict built by a comprehension over a list of key-value pairs:
a later binding for the same key overwrites an earlier one. -/
def dictLookup (pairs : List (String × α)) (k : String) : Option α :=
  pairs.foldl (fun acc p => if p.1 = k then some p.2 else acc) none

/-- Chunk-level diff, from models.ChunkDiff. -/
structure ChunkDiff where
  document_id : Nat
  from_version : Nat
  to_version : Nat
  added_chunks : List Chunk
  modified_chunks : List (Chunk × Chunk)
  removed_chunks : List Chunk
  unchanged_chunks : List Chunk
  reordered_chunks : List Chunk
deriving DecidableEq, Repr

/-- ChunkDiff.total_changes property: added + modified. -/
def ChunkDiff.total_changes (d : ChunkDiff) : Nat :=
  d.added_chunks.length + d.modified_chunks.length

/-- ChunkDiff.total_chunks property: added + modified + unchanged + reordered. -/
def ChunkDiff.total_chunks (d : ChunkDiff) : Nat :=
  d.added_chunks.length + d.modified_chunks.length
    + d.unchanged_chunks.length + d.reordered_chunks.length

/-- ChunkDiff.savings_percentage property: 0 when total_chunks is 0, else
(unchanged + reordered) / total_chunks * 100. Python computes this on
floats; it is modelled on the rationals. -/
def ChunkDiff.savings_percentage (d : ChunkDiff) : ℚ :=
  if d.total_chunks = 0 then 0
  else ((d.unchanged_chunks.length + d.reordered_chunks.length : ℚ) / d.total_chunks) * 100

/-- The new-chunk construction loop of detect_chunk_changes: one Chunk per
text segment, 0-indexed, hashed and token-counted. The Chunker and its
token estimator are abstracted as the functions hashFn / countTokens and
the segment list texts it returned. -/
def make_new_chunks (hashFn : String → String) (countTokens : String → Nat)
    (docId verId : Nat) (texts : List String) : List Chunk :=
  texts.enum.map (fun p =>
    { document_id := docId, version_id := verId, chunk_index := p.1
      content_hash := hashFn p.2, token_count := countTokens p.2 })

/-- The hash-to-chunk dict {chunk.content_hash: chunk for chunk in chunks}. -/
def chunk_map (chunks : List Chunk) : List (String × Chunk) :=
  chunks.map (fun c => (c.content_hash, c))

/-- The hash-to-position dict {chunk.content_hash: chunk.chunk_index for chunk in chunks}. -/
def position_map (chunks : List Chunk) : List (String × Nat) :=
  chunks.map (fun c => (c.content_hash, c.chunk_index))

/-- The classification loop over new chunks in detect_chunk_changes: a chunk
whose hash is absent from the old map is added; present at the same
position, unchanged; present at a different position, reordered. Returns
(added, unchanged, reordered), each in traversal order. -/
def classify_new (old_chunks : List Chunk) :
    List Chunk → List Chunk × List Chunk × List Chunk
  | [] => ([], [], [])
  | new_chunk :: rest =>
    let t := classify_new old_chunks rest
    if (dictLookup (chunk_map old_chunks) new_chunk.content_hash).isNone then
      (new_chunk :: t.1, t.2.1, t.2.2)
    else if dictLookup (position_map old_chunks) new_chunk.content_hash
        = some new_chunk.chunk_index then
      (t.1, new_chunk :: t.2.1, t.2.2)
    else
      (t.1, t.2.1, new_chunk :: t.2.2)

/-- ChunkChangeDetector.detect_chunk_changes. The storage round trips
(fetching the old version's chunks, with errors degrading to an empty
list, and the two version rows giving from_version / to_version) are
abstracted into the old_chunks, from_version and to_version arguments; the
chunker run over new_content into the texts argument. modified_chunks is
always empty in the hash-based approach. -/
def detect_chunk_changes (hashFn : String → String) (countTokens : String → Nat)
    (docId : Nat) (old_chunks : List Chunk) (from_version : Nat)
    (texts : List String) (new_version_id to_version : Nat) : ChunkDiff :=
  let new_chunks := make_new_chunks hashFn countTokens docId new_version_id texts
  let classified := classify_new old_chunks new_chunks
  let removed := old_chunks.filter
    (fun oc => (dictLookup (chunk_map new_chunks) oc.content_hash).isNone)
  { document_id := docId, from_version := from_version, to_version := to_version
    added_chunks := classified.1, modified_chunks := []
    removed_chunks := removed, unchanged_chunks := classified.2.1
    reordered_chunks := classified.2.2 }

/-- The storage state detect_change leaves behind: the updated state on
success; on an error the storage is unchanged (every detect_change error is
raised before any storage write). -/
def detect_state (cfg : ChangeDetector) (st : StorageState) (fs : FileSystem)
    (now : Nat) (path : String) : StorageState :=
  match detect_change cfg st fs now path with
  | .ok (st', _) => st'
  | .error _ => st

/-- The (file system, storage) pair restore_version leaves behind; every
restore_version error is raised before any write. -/
def restore_state (cfg : ChangeDetector) (st : StorageState) (fs : FileSystem)
    (now : Nat) (docId verNum : Nat) (target : Option String) :
    FileSystem × StorageState :=
  match restore_version cfg st fs now docId verNum target with
  | .ok (fs', st', _, _) => (fs', st')
  | .error _ => (fs, st)

/-- One step of the tracking operations: an external file-system edit, a
detect_change run (create / modify / delete / no-op), or a restore_version
run. -/
inductive TrackStep (cfg : ChangeDetector) :
    FileSystem × StorageState → FileSystem × StorageState → Prop where
  | fs_edit (fs fs' : FileSystem) (st : StorageState) :
      TrackStep cfg (fs, st) (fs', st)
  | detect (fs : FileSystem) (st : StorageState) (now : Nat) (path : String) :
      TrackStep cfg (fs, st) (fs, detect_state cfg st fs now path)
  | restore (fs : FileSystem) (st : StorageState) (now docId verNum : Nat)
      (target : Option String) :
      TrackStep cfg (fs, st) (restore_state cfg st fs now docId verNum target)

/-- A TrackStep or a cleanup_old_versions run. -/
inductive TrackCleanupStep (cfg : ChangeDetector) :
    FileSystem × StorageState → FileSystem × StorageState → Prop where
  | base {w w' : FileSystem × StorageState} (h : TrackStep cfg w w') :
      TrackCleanupStep cfg w w'
  | cleanup (fs : FileSystem) (st : StorageState) (docId keep : Nat) :
      TrackCleanupStep cfg (fs, st) (fs, (cleanup_old_versions st docId keep).1)

/-- States reachable from an empty store by tracking operations without
cleanup. -/
def ReachableTrack (cfg : ChangeDetector) (w : FileSystem × StorageState) : Prop :=
  Relation.ReflTransGen (TrackStep cfg) (⟨[]⟩, .empty) w

/-- States reachable from an empty store by tracking operations including
cleanup. -/
def ReachableTrackCleanup (cfg : ChangeDetector) (w : FileSystem × StorageState) : Prop :=
  Relation.ReflTransGen (TrackCleanupStep cfg) (⟨[]⟩, .empty) w

/-- Version numbers recorded for a document, in row order. -/
def version_numbers (st : StorageState) (docId : Nat) : List Nat :=
  (st.versions.filter (fun v => v.document_id == docId)).map (fun v => v.version_number)

/-- The claimed numbering invariant: for every document the version numbers
are exactly 1, 2, …, version_count, in order, with no gaps and no
duplicates. -/
def DenseVersions (st : StorageState) : Prop :=
  ∀ d ∈ st.documents, version_numbers st d.id = List.range' 1 d.version_count

/-- Auxiliary storage invariant: document ids are below the id counter and
unique, every version points below the id counter, version numbers are
dense from 1, and current_version tracks version_count. -/
def StorageInv (st : StorageState) : Prop :=
  (∀ d ∈ st.documents, d.id < st.nextId)
  ∧ (st.documents.map (fun d => d.id)).Nodup
  ∧ (∀ v ∈ st.versions, v.document_id < st.nextId)
  ∧ (∀ d ∈ st.documents, version_numbers st d.id = List.range' 1 d.version_count)
  ∧ (∀ d ∈ st.documents, d.current_version = d.version_count)

/-- Self-diff: diff new content against the chunks produced from the same
segment list by the same chunker (the old chunks belonging to
old_version_id). -/
def self_diff (hashFn : String → String) (countTokens : String → Nat)
    (docId old_version_id from_version : Nat) (texts : List String)
    (new_version_id to_version : Nat) : ChunkDiff :=
  detect_chunk_changes hashFn countTokens docId
    (make_new_chunks hashFn countTokens docId old_version_id texts)
    from_version texts new_version_id to_version

/-- Concrete stand-in for the configured hash function (claims only compare
digests for equality, so any injective function serves as sha256 here). -/
def exHash : String → String := fun s => s

/-- Detector built with the default configuration (store_content = true,
max_file_size_mb = 50, so max_file_size_bytes = 52428800). -/
def cfgEx : ChangeDetector :=
  { store_content := true, max_file_size_bytes := 52428800, hashFn := exHash }

/-- File system with one parsable file a.txt containing "hello". -/
def fsHello : FileSystem := ⟨[("a.txt", ⟨"hello", 5, true⟩)]⟩

/-- File system after a.txt was edited to "hello world". -/
def fsHelloWorld : FileSystem := ⟨[("a.txt", ⟨"hello world", 11, true⟩)]⟩

/-- File system after a.txt was removed. -/
def fsGone : FileSystem := ⟨[]⟩

/-- The document row after a.txt with content "hello" was first tracked. -/
def docTracked : Document :=
  { id := 0
    file_path := "a.txt"
    file_name := "a.txt"
    file_type := ".txt"
    file_size := 5
    content_hash := "hello"
    created_at := 0
    updated_at := 0
    version_count := 1
    current_version := 1 }

/-- Version 1 of a.txt. -/
def verTracked : Version :=
  { id := 1
    document_id := 0
    version_number := 1
    content_hash := "hello"
    content := some "hello"
    file_size := 5
    change_type := .created }

/-- Storage after a.txt was first tracked. -/
def stTracked : StorageState :=
  { documents := [docTracked], versions := [verTracked], nextId := 2 }

/-- The document row after the modification to "hello world" at time 7. -/
def docModified : Document :=
  { docTracked with
    file_size := 11
    content_hash := "hello world"
    updated_at := 7
    version_count := 2
    current_version := 2 }

/-- Version 2 of a.txt (modified). -/
def verModified : Version :=
  { id := 2
    document_id := 0
    version_number := 2
    content_hash := "hello world"
    content := some "hello world"
    file_size := 11
    change_type := .modified }

/-- Storage after the modification. -/
def stModified : StorageState :=
  { documents := [docModified], versions := [verTracked, verModified], nextId := 3 }

/-- The event the modification run emits, exactly as the code builds it. -/
def evModified : ChangeEvent :=
  { document_id := 0
    version_id := 2
    file_path := "a.txt"
    file_name := "a.txt"
    change_type := .modified
    version_number := 2
    content_hash := "hello world"
    previous_hash := some "hello world"
    file_size := 11 }

/-- The event the first (creation) run emits. -/
def evCreated : ChangeEvent :=
  { document_id := 0
    version_id := 1
    file_path := "a.txt"
    file_name := "a.txt"
    change_type := .created
    version_number := 1
    content_hash := "hello"
    previous_hash := none
    file_size := 5 }

/-- Storage after a.txt was deleted from disk and its deletion tracked at
time 9: a deleted version 2 of size 0, document hash left at "hello". -/
def stDeleted : StorageState :=
  { documents := [{ docTracked with updated_at := 9, version_count := 2, current_version := 2 }]
    versions := [verTracked, ⟨2, 0, 2, "hello", none, 0, .deleted⟩]
    nextId := 3 }

/-- The event the deletion run emits. -/
def evDeleted : ChangeEvent :=
  { document_id := 0
    version_id := 2
    file_path := "a.txt"
    file_name := "a.txt"
    change_type := .deleted
    version_number := 2
    content_hash := "hello"
    previous_hash := some "hello"
    file_size := 0 }

/-- File system whose a.txt holds "v1". -/
def fsV1 : FileSystem := ⟨[("a.txt", ⟨"v1", 2, true⟩)]⟩

/-- File system whose a.txt holds "v2". -/
def fsV2 : FileSystem := ⟨[("a.txt", ⟨"v2", 2, true⟩)]⟩

/-- Storage after tracking a.txt = "v1" from an empty store at time 1. -/
def stAfterV1 : StorageState := detect_state cfgEx .empty fsV1 1 "a.txt"

/-- Storage after then tracking a.txt = "v2" at time 2 (two versions). -/
def stAfterV2 : StorageState := detect_state cfgEx stAfterV1 fsV2 2 "a.txt"

/-- Storage after cleanup_old_versions keeps only the most recent version. -/
def stCleaned : StorageState := (cleanup_old_versions stAfterV2 0 1).1

/-- The document row of a.txt after the v2 modification. -/
def docV2 : Document :=
  { id := 0
    file_path := "a.txt"
    file_name := "a.txt"
    file_type := ".txt"
    file_size := 2
    content_hash := "v2"
    created_at := 1
    updated_at := 2
    version_count := 2
    current_version := 2 }

theorem classify_new_length (old : List Chunk) (l : List Chunk) :
    (classify_new old l).1.length + (classify_new old l).2.1.length
      + (classify_new old l).2.2.length = l.length := by
  induction l with
  | nil => rfl
  | cons c rest ih =>
    simp only [classify_new]
    split_ifs <;> simp <;> omega

theorem classify_new_added_eq (old : List Chunk) (l : List Chunk) :
    (classify_new old l).1
      = l.filter (fun c => (dictLookup (chunk_map old) c.content_hash).isNone) := by
  induction l with
  | nil => rfl
  | cons c rest ih =>
    simp only [classify_new, List.filter_cons]
    split_ifs with h1 h2 <;> simp_all

theorem classify_new_unchanged_eq (old : List Chunk) (l : List Chunk) :
    (classify_new old l).2.1
      = l.filter (fun c => !(dictLookup (chunk_map old) c.content_hash).isNone
          && (dictLookup (position_map old) c.content_hash == some c.chunk_index)) := by
  induction l with
  | nil => rfl
  | cons c rest ih =>
    simp only [classify_new, List.filter_cons]
    split_ifs with h1 h2 <;> simp_all

theorem classify_new_reordered_eq (old : List Chunk) (l : List Chunk) :
    (classify_new old l).2.2
      = l.filter (fun c => !(dictLookup (chunk_map old) c.content_hash).isNone
          && !(dictLookup (position_map old) c.content_hash == some c.chunk_index)) := by
  induction l with
  | nil => rfl
  | cons c rest ih =>
    simp only [classify_new, List.filter_cons]
    split_ifs with h1 h2 <;> simp_all

theorem dictLookup_eq_none_iff (pairs : List (String × α)) (k : String) :
    dictLookup pairs k = none ↔ ∀ p ∈ pairs, p.1 ≠ k := by
  have main : ∀ acc : Option α,
      pairs.foldl (fun acc p => if p.1 = k then some p.2 else acc) acc = none
        ↔ acc = none ∧ ∀ p ∈ pairs, p.1 ≠ k := by
    induction pairs with
    | nil => intro acc; simp
    | cons p rest ih =>
      intro acc
      rw [List.foldl_cons, ih]
      by_cases hp : p.1 = k
      · simp [hp]
      · simp only [hp, if_false, List.mem_cons]
        constructor
        · rintro ⟨h1, h2⟩
          refine ⟨h1, ?_⟩
          rintro q (rfl | hq)
          · exact hp
          · exact h2 q hq
        · rintro ⟨h1, h2⟩
          exact ⟨h1, fun q hq => h2 q (Or.inr hq)⟩
  simpa using main none

theorem dictLookup_chunk_map_isNone_iff (l : List Chunk) (h : String) :
    (dictLookup (chunk_map l) h).isNone = true ↔ ∀ c ∈ l, c.content_hash ≠ h := by
  rw [Option.isNone_iff_eq_none, dictLookup_eq_none_iff]
  simp [chunk_map]

theorem make_new_chunks_map_hash (f : String → String) (ct : String → Nat)
    (docId verId : Nat) (texts : List String) :
    (make_new_chunks f ct docId verId texts).map (fun c => c.content_hash)
      = texts.map f := by
  unfold make_new_chunks
  rw [List.map_map]
  have heq : ((fun c : Chunk => c.content_hash) ∘ fun p : Nat × String =>
      ({ document_id := docId, version_id := verId, chunk_index := p.1,
         content_hash := f p.2, token_count := ct p.2 } : Chunk)) = fun p => f p.2 := rfl
  rw [heq]
  calc texts.enum.map (fun p => f p.2)
      = (texts.enum.map Prod.snd).map f := by rw [List.map_map]; rfl
    _ = texts.map f := by rw [List.enum_map_snd]

theorem make_new_chunks_length (f : String → String) (ct : String → Nat)
    (docId verId : Nat) (texts : List String) :
    (make_new_chunks f ct docId verId texts).length = texts.length := by
  simp [make_new_chunks]

theorem version_numbers_append (docs : List Document) (versions : List Version)
    (n : Nat) (v : Version) (docId : Nat) :
    version_numbers ⟨docs, versions ++ [v], n⟩ docId
      = version_numbers ⟨docs, versions, n⟩ docId
        ++ (if v.document_id = docId then [v.version_number] else []) := by
  unfold version_numbers
  simp only [List.filter_append]
  by_cases h : v.document_id = docId
  · simp [h]
  · simp [h]

theorem version_numbers_nil (st : StorageState) (docId : Nat)
    (h : ∀ v ∈ st.versions, v.document_id ≠ docId) :
    version_numbers st docId = [] := by
  unfold version_numbers
  rw [List.filter_eq_nil_iff.mpr]
  · rfl
  · intro v hv
    simpa using h v hv

theorem inv_empty : StorageInv .empty := by
  refine ⟨?_, ?_, ?_, ?_, ?_⟩ <;> simp [StorageState.empty, version_numbers]

theorem range'_one_concat (s n : Nat) :
    List.range' s (n + 1) = List.range' s n ++ [s + n] := by
  have := @List.range'_concat 1 s n
  simpa using this

theorem inv_bump (st : StorageState) (doc d' : Document) (v : Version)
    (hmem : doc ∈ st.documents)
    (hvdoc : v.document_id = doc.id)
    (hvnum : v.version_number = doc.current_version + 1)
    (hid : d'.id = doc.id)
    (hvc : d'.version_count = doc.version_count + 1)
    (hcv : d'.current_version = doc.current_version + 1)
    (hinv : StorageInv st) :
    StorageInv ⟨st.documents.map (fun x => if x.id = d'.id then d' else x),
      st.versions ++ [v], st.nextId + 1⟩ := by
  obtain ⟨hA, hB, hC, hD, hE⟩ := hinv
  have hdoclt : doc.id < st.nextId := hA doc hmem
  have hids : (st.documents.map (fun x => if x.id = d'.id then d' else x)).map
      (fun d => d.id) = st.documents.map (fun d => d.id) := by
    rw [List.map_map]
    apply List.map_congr_left
    intro x _
    by_cases hx : x.id = d'.id
    · simp [Function.comp, hx, hid]
    · simp [Function.comp, hx]
  refine ⟨?_, ?_, ?_, ?_, ?_⟩
  · intro d hd
    show d.id < st.nextId + 1
    obtain ⟨x, hx, hxd⟩ := List.mem_map.mp hd
    by_cases hxe : x.id = d'.id
    · rw [if_pos hxe] at hxd
      subst hxd
      rw [hid]
      omega
    · rw [if_neg hxe] at hxd
      subst hxd
      have := hA x hx
      omega
  · show ((st.documents.map (fun x => if x.id = d'.id then d' else x)).map
      (fun d => d.id)).Nodup
    rw [hids]
    exact hB
  · intro v' hv'
    show v'.document_id < st.nextId + 1
    rcases List.mem_append.mp hv' with h | h
    · have := hC v' h
      omega
    · rcases List.mem_singleton.mp h with rfl
      rw [hvdoc]
      omega
  · intro d hd
    obtain ⟨x, hx, hxd⟩ := List.mem_map.mp hd
    have happ := version_numbers_append
      (st.documents.map (fun y => if y.id = d'.id then d' else y)) st.versions
      (st.nextId + 1) v d.id
    have hbase : version_numbers
        (⟨st.documents.map (fun y => if y.id = d'.id then d' else y), st.versions,
          st.nextId + 1⟩ : StorageState) d.id = version_numbers st d.id := rfl
    by_cases hxe : x.id = d'.id
    · rw [if_pos hxe] at hxd
      subst hxd
      have hxdoc : x = doc :=
        List.inj_on_of_nodup_map hB hx hmem (by rw [hxe, hid])
      show version_numbers _ d'.id = List.range' 1 d'.version_count
      rw [happ, hbase, if_pos (by rw [hvdoc, hid]), hid]
      rw [hD doc hmem, hvnum, hE doc hmem, hvc, range'_one_concat]
      simp [Nat.add_comm]
    · rw [if_neg hxe] at hxd
      subst hxd
      show version_numbers _ x.id = List.range' 1 x.version_count
      rw [happ, hbase, if_neg (by rw [hvdoc, ← hid]; exact fun hh => hxe hh.symm)]
      rw [List.append_nil]
      exact hD x hx
  · intro d hd
    obtain ⟨x, hx, hxd⟩ := List.mem_map.mp hd
    by_cases hxe : x.id = d'.id
    · rw [if_pos hxe] at hxd
      subst hxd
      rw [hcv, hvc, hE doc hmem]
    · rw [if_neg hxe] at hxd
      subst hxd
      exact hE x hx

theorem inv_create (st : StorageState) (doc : Document) (v : Version)
    (hdocid : doc.id = st.nextId)
    (hdvc : doc.version_count = 1) (hdcv : doc.current_version = 1)
    (hvdoc : v.document_id = doc.id) (hvnum : v.version_number = 1)
    (hinv : StorageInv st) :
    StorageInv ⟨st.documents ++ [doc], st.versions ++ [v], st.nextId + 2⟩ := by
  obtain ⟨hA, hB, hC, hD, hE⟩ := hinv
  refine ⟨?_, ?_, ?_, ?_, ?_⟩
  · intro d hd
    show d.id < st.nextId + 2
    rcases List.mem_append.mp hd with h | h
    · have := hA d h
      omega
    · rcases List.mem_singleton.mp h with rfl
      omega
  · show ((st.documents ++ [doc]).map (fun d => d.id)).Nodup
    rw [List.map_append]
    rw [List.nodup_append]
    refine ⟨hB, by simp, ?_⟩
    intro i hi
    simp only [List.map_cons, List.map_nil, List.mem_singleton]
    intro hieq
    obtain ⟨x, hx, hxi⟩ := List.mem_map.mp hi
    have := hA x hx
    omega
  · intro v' hv'
    show v'.document_id < st.nextId + 2
    rcases List.mem_append.mp hv' with h | h
    · have := hC v' h
      omega
    · rcases List.mem_singleton.mp h with rfl
      omega
  · intro d hd
    have happ := version_numbers_append (st.documents ++ [doc]) st.versions
      (st.nextId + 2) v d.id
    have hbase : version_numbers
        (⟨st.documents ++ [doc], st.versions, st.nextId + 2⟩ : StorageState) d.id
        = version_numbers st d.id := rfl
    rcases List.mem_append.mp hd with h | h
    · show version_numbers _ d.id = List.range' 1 d.version_count
      rw [happ, hbase, if_neg ?hne]
      · rw [List.append_nil]
        exact hD d h
      case hne =>
        rw [hvdoc, hdocid]
        have := hA d h
        omega
    · rcases List.mem_singleton.mp h with rfl
      show version_numbers _ d.id = List.range' 1 d.version_count
      rw [happ, hbase, if_pos (by rw [hvdoc])]
      rw [version_numbers_nil st d.id ?hnone]
      · rw [hvnum, hdvc]
        rfl
      case hnone =>
        intro v' hv'
        have := hC v' hv'
        rw [hdocid]
        omega
  · intro d hd
    rcases List.mem_append.mp hd with h | h
    · exact hE d h
    · rcases List.mem_singleton.mp h with rfl
      rw [hdcv, hdvc]

theorem inv_detect (cfg : ChangeDetector) (st : StorageState) (fs : FileSystem)
    (now : Nat) (path : String) (hinv : StorageInv st) :
    StorageInv (detect_state cfg st fs now path) := by
  unfold detect_state detect_change
  cases hfs : fs.lookup path with
  | none =>
    simp only [hfs]
    cases hdoc : get_document_by_path st path with
    | some doc =>
      simp only [hdoc]
      have hmem : doc ∈ st.documents := List.mem_of_find?_eq_some hdoc
      unfold handle_deletion create_version update_document
      simp only
      exact inv_bump st doc
        { doc with version_count := doc.version_count + 1, current_version := doc.current_version + 1, updated_at := now }
        { id := st.nextId, document_id := doc.id, version_number := doc.current_version + 1, content_hash := doc.content_hash, content := none, file_size := 0, change_type := .deleted }
        hmem rfl rfl rfl rfl rfl hinv
    | none =>
      simp only [hdoc]
      exact hinv
  | some info =>
    simp only [hfs]
    by_cases hsz : info.size > cfg.max_file_size_bytes
    · simp only [if_pos hsz]
      exact hinv
    · simp only [if_neg hsz]
      unfold parse_file
      by_cases hp : info.parses = true
      · simp only [if_pos hp]
        cases hdoc : get_document_by_path st path with
        | none =>
          simp only [hdoc]
          unfold handle_creation create_document create_version
          simp only
          exact inv_create st
            { id := st.nextId, file_path := path, file_name := path_name path, file_type := path_suffix_or_unknown path, file_size := info.size, content_hash := cfg.hashFn info.content, created_at := now, updated_at := now, version_count := 1, current_version := 1 }
            { id := st.nextId + 1, document_id := st.nextId, version_number := 1, content_hash := cfg.hashFn info.content, content := if cfg.store_content then some info.content else none, file_size := info.size, change_type := .created }
            rfl rfl rfl rfl rfl hinv
        | some doc =>
          simp only [hdoc]
          have hmem : doc ∈ st.documents := List.mem_of_find?_eq_some hdoc
          by_cases hch : doc.content_hash ≠ cfg.hashFn info.content
          · simp only [if_pos hch]
            unfold handle_modification update_document create_version
            simp only
            exact inv_bump st doc
              { doc with content_hash := cfg.hashFn info.content, file_size := info.size, version_count := doc.version_count + 1, current_version := doc.current_version + 1, updated_at := now }
              { id := st.nextId, document_id := doc.id, version_number := doc.current_version + 1, content_hash := cfg.hashFn info.content, content := if cfg.store_content then some info.content else none, file_size := info.size, change_type := .modified }
              hmem rfl rfl rfl rfl rfl hinv
          · simp only [if_neg hch]
            exact hinv
      · simp only [if_neg hp]
        exact hinv

theorem inv_restore (cfg : ChangeDetector) (st : StorageState) (fs : FileSystem)
    (now docId verNum : Nat) (target : Option String) (hinv : StorageInv st) :
    StorageInv (restore_state cfg st fs now docId verNum target).2 := by
  unfold restore_state restore_version
  cases hdoc : get_document st docId with
  | none =>
    simp only [hdoc]
    exact hinv
  | some document =>
    simp only [hdoc]
    cases hver : get_version_by_number st docId verNum with
    | none =>
      simp only [hver]
      exact hinv
    | some version =>
      simp only [hver]
      cases hcont : get_content st version.id with
      | none =>
        simp only [hcont]
        exact hinv
      | some content =>
        simp only [hcont]
        by_cases hemp : content = ""
        · simp only [if_pos hemp]
          exact hinv
        · simp only [if_neg hemp]
          have hmem : document ∈ st.documents := List.mem_of_find?_eq_some hdoc
          unfold create_version update_document
          simp only
          exact inv_bump st document
            { document with content_hash := version.content_hash, file_size := version.file_size, version_count := document.version_count + 1, current_version := document.current_version + 1, updated_at := now }
            { id := st.nextId, document_id := document.id, version_number := document.current_version + 1, content_hash := version.content_hash, content := if cfg.store_content then some content else none, file_size := version.file_size, change_type := .restored }
            hmem rfl rfl rfl rfl rfl hinv

theorem inv_reachable (cfg : ChangeDetector) (w : FileSystem × StorageState)
    (h : ReachableTrack cfg w) : StorageInv w.2 := by
  unfold ReachableTrack at h
  induction h with
  | refl => exact inv_empty
  | tail hsteps hstep ih =>
    cases hstep with
    | fs_edit fs fs' st => exact ih
    | detect fs st now path => exact inv_detect cfg st fs now path ih
    | restore fs st now docId verNum target =>
      exact inv_restore cfg st fs now docId verNum target ih

theorem go_counts_bound (cfg : ChangeDetector) (fs : FileSystem) (now : Nat)
    (on_error : String) (files : List String) :
    ∀ (st : StorageState) (successful : List ChangeEvent) (failed : List FileProcessingError),
      (track_directory_go cfg fs now on_error files st successful failed).2.1.length
        + (track_directory_go cfg fs now on_error files st successful failed).2.2.1.length
      ≤ successful.length + failed.length + files.length := by
  induction files with
  | nil => intro st successful failed; simp [track_directory_go]
  | cons f rest ih =>
    intro st successful failed
    unfold track_directory_go
    cases htrack : track cfg st fs now f with
    | ok p =>
      obtain ⟨st', result⟩ := p
      simp only
      cases hev : result.event with
      | some event =>
        by_cases hch : result.changed = true
        · simp only [hch, if_true]
          have := ih st' (successful ++ [event]) failed
          simp only [List.length_append, List.length_cons, List.length_nil] at this ⊢
          omega
        · have hch' : result.changed = false := by simpa using hch
          simp only [hch', Bool.false_eq_true, if_false]
          have := ih st' successful failed
          simp only [List.length_cons] at this ⊢
          omega
      | none =>
        have := ih st' successful failed
        simp only [List.length_cons] at this ⊢
        omega
    | error e =>
      by_cases hstop : on_error = "stop"
      · simp only [hstop, if_true]
        simp
        omega
      · simp only [hstop, if_false]
        have := ih st successful (failed ++ [⟨f, error_type_of e⟩])
        simp at this ⊢
        omega

theorem reach_stAfterV2 : ReachableTrack cfgEx (fsV2, stAfterV2) :=
  Relation.ReflTransGen.tail
    (Relation.ReflTransGen.tail
      (Relation.ReflTransGen.tail
        (Relation.ReflTransGen.tail Relation.ReflTransGen.refl
          (TrackStep.fs_edit ⟨[]⟩ fsV1 .empty))
        (TrackStep.detect fsV1 .empty 1 "a.txt"))
      (TrackStep.fs_edit fsV1 fsV2 stAfterV1))
    (TrackStep.detect fsV2 stAfterV1 2 "a.txt")

/-- C1: on a modification run, detect_change creates Version current+1 with
kind modified and updates the document's hash, size, version_count,
current_version and updated_at — but the returned ChangeEvent's
previous_hash is read from the document object after its content_hash was
already overwritten, so it carries the NEW hash ("hello world"), not the
prior hash ("hello") the claim and the field's own description require.
Concretely: a.txt was tracked with hash "hello"; its content is now
"hello world". -/
theorem modification_event_previous_hash_is_new_hash :
    detect_change cfgEx stTracked fsHelloWorld 7 "a.txt" = .ok (stModified, some evModified)
    ∧ evModified.change_type = .modified
    ∧ evModified.version_number = 2
    ∧ get_document stModified 0 = some docModified
    ∧ evModified.previous_hash = some (cfgEx.hashFn "hello world")
    ∧ evModified.previous_hash ≠ some "hello" := by
  refine ⟨rfl, rfl, rfl, rfl, rfl, ?_⟩
  decide

/-- C2 counterexample: a directory run with on_error = "stop" whose only
file fails (here with the AttributeError every track call raises) does NOT
propagate the exception to the caller: track_directory returns a
BatchResult recording the failure, because the asyncio.gather call is
wrapped in try/except Exception: pass. -/
theorem stop_policy_run_returns_batch_result :
    track_directory cfgEx .empty fsHello 0 true true ["a.txt"] "stop"
      = .ok (.empty, ⟨[], [⟨"a.txt", "unknown"⟩], 1⟩) := rfl

/-- C2 (amended): track_directory never propagates a per-file failure — it
always returns a BatchResult once directory validation passes — and under
on_error = "stop" the first per-file failure records a
FileProcessingError, abandons the remaining files, and carries the error
only as far as the swallowed gather result. -/
theorem track_directory_catches_stop_error :
    (∀ (cfg : ChangeDetector) (st : StorageState) (fs : FileSystem) (now : Nat)
       (files : List String) (on_error : String),
       ∃ q, track_directory cfg st fs now true true files on_error = .ok q)
    ∧ (∀ (cfg : ChangeDetector) (fs : FileSystem) (now : Nat) (f : String)
         (rest : List String) (st : StorageState) (successful : List ChangeEvent)
         (failed : List FileProcessingError) (e : TrackError),
       track cfg st fs now f = .error e →
       track_directory_go cfg fs now "stop" (f :: rest) st successful failed
         = (st, successful, failed ++ [⟨f, error_type_of e⟩], some e)) := by
  constructor
  · intro cfg st fs now files on_error
    exact ⟨_, rfl⟩
  · intro cfg fs now f rest st successful failed e htrack
    unfold track_directory_go
    rw [htrack]
    simp

/-- C2 witness: the stop-policy loop on a concrete failing first file halts
immediately, records the failure, and leaves the second file unprocessed. -/
theorem track_directory_catches_stop_error_witness :
    track_directory_go cfgEx fsHello 0 "stop" ["a.txt", "b.txt"] .empty [] []
      = (.empty, [], [⟨"a.txt", "unknown"⟩], some (.attributeError "max_file_size_mb")) :=
  track_directory_catches_stop_error.2 cfgEx fsHello 0 "a.txt" ["b.txt"] .empty [] [] _ rfl

/-- C3: track is supposed to validate the file size against the configured
ceiling before delegating to the detector, but the size check reads
self.detector.max_file_size_mb, an attribute ChangeDetector never defines
(it stores max_file_size_bytes), so every track call on an existing file —
here a 5-byte file far below the 50 MB ceiling — raises AttributeError
instead of proceeding to change detection. -/
theorem track_size_validation_attribute_error :
    track cfgEx stTracked fsHello 1 "a.txt" = .error (.attributeError "max_file_size_mb")
    ∧ (5 : Nat) ≤ cfgEx.max_file_size_bytes := by
  exact ⟨rfl, by decide⟩

/-- C4 counterexample: from an empty store, track "v1", edit to "v2", track
again (two versions, version_count = 2), then cleanup_old_versions with
keep_count = 1: the state is reachable by the claimed operation set, but
the surviving version numbers are [2] — version 1 is gone while
version_count stays 2, so the set is not {1, …, version_count}. -/
theorem cleanup_breaks_dense_version_numbers :
    ReachableTrackCleanup cfgEx (fsV2, stCleaned)
    ∧ get_document stCleaned 0 = some docV2
    ∧ docV2.version_count = 2
    ∧ version_numbers stCleaned 0 = [2]
    ∧ (1 : Nat) ∉ version_numbers stCleaned 0
    ∧ version_numbers stCleaned 0 ≠ List.range' 1 docV2.version_count := by
  refine ⟨?_, rfl, rfl, rfl, by decide, by decide⟩
  exact Relation.ReflTransGen.tail
    (Relation.ReflTransGen.tail
      (Relation.ReflTransGen.tail
        (Relation.ReflTransGen.tail
          (Relation.ReflTransGen.tail Relation.ReflTransGen.refl
            (TrackCleanupStep.base (TrackStep.fs_edit ⟨[]⟩ fsV1 .empty)))
          (TrackCleanupStep.base (TrackStep.detect fsV1 .empty 1 "a.txt")))
        (TrackCleanupStep.base (TrackStep.fs_edit fsV1 fsV2 stAfterV1)))
      (TrackCleanupStep.base (TrackStep.detect fsV2 stAfterV1 2 "a.txt")))
    (TrackCleanupStep.cleanup fsV2 stAfterV2 0 1)

/-- C4 (amended): in every state reachable by create / modify / delete /
restore — cleanup excluded — every document's version numbers are exactly
the dense increasing sequence 1, …, version_count. -/
theorem track_reachable_version_numbers_dense :
    ∀ (cfg : ChangeDetector) (w : FileSystem × StorageState),
      ReachableTrack cfg w → DenseVersions w.2 :=
  fun cfg w h d hd => ((inv_reachable cfg w h).2.2.2.1) d hd

/-- C4 witness: the dense-numbering invariant at the concrete two-version
state reached by tracking "v1" then "v2". -/
theorem track_reachable_version_numbers_dense_witness : DenseVersions stAfterV2 :=
  track_reachable_version_numbers_dense cfgEx (fsV2, stAfterV2) reach_stAfterV2

/-- C5: when the stored document hash equals the newly computed hash,
detect_change creates no Version and returns none (proved in general and
at the concrete repeat-track of a.txt = "hello"), so tracking an unchanged
file twice leaves exactly one Version; but the claimed consequence about
the second track call fails: track raises AttributeError at the size check
(missing detector.max_file_size_mb) instead of returning changed = false. -/
theorem unchanged_hash_detect_noop_track_attribute_error :
    (∀ (cfg : ChangeDetector) (st : StorageState) (fs : FileSystem) (now : Nat)
       (path : String) (info : FileInfo) (doc : Document),
       fs.lookup path = some info →
       ¬ info.size > cfg.max_file_size_bytes →
       info.parses = true →
       get_document_by_path st path = some doc →
       doc.content_hash = cfg.hashFn info.content →
       detect_change cfg st fs now path = .ok (st, none))
    ∧ detect_change cfgEx .empty fsHello 0 "a.txt" = .ok (stTracked, some evCreated)
    ∧ detect_change cfgEx stTracked fsHello 1 "a.txt" = .ok (stTracked, none)
    ∧ stTracked.versions.length = 1
    ∧ track cfgEx stTracked fsHello 1 "a.txt" = .error (.attributeError "max_file_size_mb") := by
  refine ⟨?_, rfl, rfl, rfl, rfl⟩
  intro cfg st fs now path info doc hfs hsz hp hdoc hh
  unfold detect_change
  simp only [hfs, if_neg hsz]
  unfold parse_file
  rw [if_pos hp]
  simp only [hdoc]
  simp [hh]

/-- C5 witness: the general no-op case applied to the concrete repeat track
of the unchanged a.txt. -/
theorem unchanged_hash_detect_noop_witness :
    detect_change cfgEx stTracked fsHello 1 "a.txt" = .ok (stTracked, none) :=
  unchanged_hash_detect_noop_track_attribute_error.1 cfgEx stTracked fsHello 1 "a.txt"
    ⟨"hello", 5, true⟩ docTracked rfl (by decide) rfl rfl rfl

/-- C6 counterexample: diffing empty content against itself (the chunker
returns no segments, so the chunk set is empty) yields
savings_percentage = 0, not 100 as the claim states for every chunk set. -/
theorem self_diff_empty_savings_zero :
    (self_diff (fun s => s) String.length 0 1 1 ([] : List String) 2 2).savings_percentage = 0
    ∧ ¬ (self_diff (fun s => s) String.length 0 1 1 ([] : List String) 2 2).savings_percentage
        = 100 := by
  constructor
  · rfl
  · intro h
    rw [show (self_diff (fun s => s) String.length 0 1 1 ([] : List String) 2 2).savings_percentage
        = 0 from rfl] at h
    norm_num at h

/-- C6 (amended): diffing a version's content against itself (old chunks
produced from the same segment list by the same chunker) yields zero added
chunks, zero removed chunks, every new chunk classified unchanged or
reordered, and — whenever the chunker returns at least one segment —
savings_percentage = 100 (it is 0 for an empty segment list). -/
theorem self_diff_nonempty_full_savings (hashFn : String → String)
    (countTokens : String → Nat)
    (docId old_version_id from_version new_version_id to_version : Nat)
    (texts : List String) (hne : texts ≠ []) :
    (self_diff hashFn countTokens docId old_version_id from_version texts
        new_version_id to_version).added_chunks = []
    ∧ (self_diff hashFn countTokens docId old_version_id from_version texts
        new_version_id to_version).removed_chunks = []
    ∧ (self_diff hashFn countTokens docId old_version_id from_version texts
        new_version_id to_version).savings_percentage = 100
    ∧ ∀ c ∈ make_new_chunks hashFn countTokens docId new_version_id texts,
        c ∈ (self_diff hashFn countTokens docId old_version_id from_version texts
          new_version_id to_version).unchanged_chunks
        ∨ c ∈ (self_diff hashFn countTokens docId old_version_id from_version texts
          new_version_id to_version).reordered_chunks := by
  have hash_old := make_new_chunks_map_hash hashFn countTokens docId old_version_id texts
  have hash_new := make_new_chunks_map_hash hashFn countTokens docId new_version_id texts
  have hpresent : ∀ c ∈ make_new_chunks hashFn countTokens docId new_version_id texts,
      ¬ (dictLookup (chunk_map (make_new_chunks hashFn countTokens docId old_version_id texts))
          c.content_hash).isNone = true := by
    intro c hc
    rw [dictLookup_chunk_map_isNone_iff]
    push_neg
    have hmem : c.content_hash ∈ texts.map hashFn := by
      rw [← hash_new]
      exact List.mem_map_of_mem _ hc
    rw [← hash_old] at hmem
    obtain ⟨oc, hoc, hh⟩ := List.mem_map.mp hmem
    exact ⟨oc, hoc, hh⟩
  have hadded : (self_diff hashFn countTokens docId old_version_id from_version texts
      new_version_id to_version).added_chunks = [] := by
    simp only [self_diff, detect_chunk_changes]
    rw [classify_new_added_eq, List.filter_eq_nil_iff]
    intro c hc
    simpa using hpresent c hc
  have hremoved : (self_diff hashFn countTokens docId old_version_id from_version texts
      new_version_id to_version).removed_chunks = [] := by
    simp only [self_diff, detect_chunk_changes]
    rw [List.filter_eq_nil_iff]
    intro oc hoc
    have hmem : oc.content_hash ∈ texts.map hashFn := by
      rw [← hash_old]
      exact List.mem_map_of_mem _ hoc
    rw [← hash_new] at hmem
    obtain ⟨nc, hnc, hh⟩ := List.mem_map.mp hmem
    simp only [Bool.not_eq_true]
    rw [Bool.eq_false_iff]
    intro habs
    rw [dictLookup_chunk_map_isNone_iff] at habs
    exact habs nc hnc hh
  have hulen : (self_diff hashFn countTokens docId old_version_id from_version texts
        new_version_id to_version).unchanged_chunks.length
      + (self_diff hashFn countTokens docId old_version_id from_version texts
        new_version_id to_version).reordered_chunks.length = texts.length := by
    have hlen := classify_new_length
      (make_new_chunks hashFn countTokens docId old_version_id texts)
      (make_new_chunks hashFn countTokens docId new_version_id texts)
    have hmk := make_new_chunks_length hashFn countTokens docId new_version_id texts
    have ha : (classify_new (make_new_chunks hashFn countTokens docId old_version_id texts)
        (make_new_chunks hashFn countTokens docId new_version_id texts)).1.length = 0 := by
      have := hadded
      simp only [self_diff, detect_chunk_changes] at this
      simp [this]
    simp only [self_diff, detect_chunk_changes]
    omega
  refine ⟨hadded, hremoved, ?_, ?_⟩
  · have htot : (self_diff hashFn countTokens docId old_version_id from_version texts
        new_version_id to_version).total_chunks = texts.length := by
      have ha : (self_diff hashFn countTokens docId old_version_id from_version texts
          new_version_id to_version).added_chunks.length = 0 := by simp [hadded]
      have hm : (self_diff hashFn countTokens docId old_version_id from_version texts
          new_version_id to_version).modified_chunks.length = 0 := by
        simp [self_diff, detect_chunk_changes]
      unfold ChunkDiff.total_chunks
      omega
    have hne' : texts.length ≠ 0 := by
      intro habs
      exact hne (List.length_eq_zero.mp habs)
    unfold ChunkDiff.savings_percentage
    rw [htot, if_neg hne']
    rw [← Nat.cast_add, hulen]
    rw [div_self (by exact_mod_cast hne')]
    norm_num
  · intro c hc
    have hpres := hpresent c hc
    obtain ⟨v, hv⟩ : ∃ v, dictLookup (chunk_map
        (make_new_chunks hashFn countTokens docId old_version_id texts))
        c.content_hash = some v := by
      cases h : dictLookup (chunk_map
          (make_new_chunks hashFn countTokens docId old_version_id texts))
          c.content_hash with
      | none => exact absurd (by simp [h]) hpres
      | some v => exact ⟨v, rfl⟩
    by_cases hpos : dictLookup (position_map
        (make_new_chunks hashFn countTokens docId old_version_id texts)) c.content_hash
        = some c.chunk_index
    · left
      simp only [self_diff, detect_chunk_changes]
      rw [classify_new_unchanged_eq, List.mem_filter]
      exact ⟨hc, by simp [hv, hpos]⟩
    · right
      simp only [self_diff, detect_chunk_changes]
      rw [classify_new_reordered_eq, List.mem_filter]
      exact ⟨hc, by simp [hv, hpos]⟩

/-- C6 witness: the self-diff of the one-segment content "hello" has no
added or removed chunks and full savings. -/
theorem self_diff_nonempty_full_savings_witness :
    (self_diff (fun s => s) String.length 5 1 1 ["hello"] 2 2).added_chunks = []
    ∧ (self_diff (fun s => s) String.length 5 1 1 ["hello"] 2 2).removed_chunks = []
    ∧ (self_diff (fun s => s) String.length 5 1 1 ["hello"] 2 2).savings_percentage = 100 :=
  let h := self_diff_nonempty_full_savings (fun s => s) String.length 5 1 1 2 2 ["hello"]
    (by decide)
  ⟨h.1, h.2.1, h.2.2.1⟩

/-- C7: for every chunk diff the detector produces, the added, unchanged
and reordered chunks together count exactly the segments the chunker
returned for the new content, and that sum equals the diff's total_chunks
(modified_chunks is always empty in the hash-based approach): the
classification partitions the new chunk sequence. -/
theorem chunk_diff_counts_partition_new_segments (hashFn : String → String)
    (countTokens : String → Nat) (docId : Nat) (old_chunks : List Chunk)
    (from_version : Nat) (texts : List String) (new_version_id to_version : Nat) :
    (detect_chunk_changes hashFn countTokens docId old_chunks from_version
        texts new_version_id to_version).added_chunks.length
      + (detect_chunk_changes hashFn countTokens docId old_chunks from_version
        texts new_version_id to_version).unchanged_chunks.length
      + (detect_chunk_changes hashFn countTokens docId old_chunks from_version
        texts new_version_id to_version).reordered_chunks.length
      = texts.length
    ∧ (detect_chunk_changes hashFn countTokens docId old_chunks from_version
        texts new_version_id to_version).added_chunks.length
      + (detect_chunk_changes hashFn countTokens docId old_chunks from_version
        texts new_version_id to_version).unchanged_chunks.length
      + (detect_chunk_changes hashFn countTokens docId old_chunks from_version
        texts new_version_id to_version).reordered_chunks.length
      = (detect_chunk_changes hashFn countTokens docId old_chunks from_version
        texts new_version_id to_version).total_chunks := by
  have hlen := classify_new_length old_chunks
    (make_new_chunks hashFn countTokens docId new_version_id texts)
  have hmk := make_new_chunks_length hashFn countTokens docId new_version_id texts
  simp only [detect_chunk_changes, ChunkDiff.total_chunks]
  constructor
  · omega
  · simp

/-- C8: for every ChunkDiff, savings_percentage equals
(unchanged + reordered) / total_chunks × 100 (with ℚ division, so the
right side is also 0 at total_chunks = 0), and it equals 0 when
total_chunks is 0. -/
theorem savings_percentage_formula (d : ChunkDiff) :
    d.savings_percentage
        = ((d.unchanged_chunks.length + d.reordered_chunks.length : ℚ) / d.total_chunks) * 100
      ∧ (d.total_chunks = 0 → d.savings_percentage = 0) := by
  constructor
  · unfold ChunkDiff.savings_percentage
    by_cases h : d.total_chunks = 0
    · have hu : d.unchanged_chunks.length = 0 := by
        unfold ChunkDiff.total_chunks at h
        omega
      have hr : d.reordered_chunks.length = 0 := by
        unfold ChunkDiff.total_chunks at h
        omega
      simp [h, hu, hr]
    · simp [h]
  · intro h
    simp [ChunkDiff.savings_percentage, h]

/-- C8 witness: the formula at the empty diff gives 0. -/
theorem savings_percentage_formula_witness :
    ChunkDiff.savings_percentage ⟨0, 0, 0, [], [], [], [], []⟩ = 0 :=
  (savings_percentage_formula ⟨0, 0, 0, [], [], [], [], []⟩).2 rfl

/-- C9: for every path absent from the content source, if a document exists
detect_change creates a deleted Version numbered current_version + 1 with
size 0 carrying the document's last known content hash, returns a
ChangeEvent whose previous_hash is that last known hash, and bumps the
document's current_version and version_count while leaving its
content_hash unchanged; if no document exists it returns none. -/
theorem missing_path_deletion_spec :
    (∀ (cfg : ChangeDetector) (st : StorageState) (fs : FileSystem) (now : Nat)
       (path : String) (doc : Document),
       fs.lookup path = none →
       get_document_by_path st path = some doc →
       detect_change cfg st fs now path =
         .ok (⟨st.documents.map (fun x =>
                  if x.id = doc.id then
                    { doc with version_count := doc.version_count + 1, current_version := doc.current_version + 1, updated_at := now }
                  else x),
                st.versions ++ [⟨st.nextId, doc.id, doc.current_version + 1, doc.content_hash, none, 0, .deleted⟩],
                st.nextId + 1⟩,
              some ⟨doc.id, st.nextId, doc.file_path, doc.file_name, .deleted, doc.current_version + 1, doc.content_hash, some doc.content_hash, 0⟩))
    ∧ (∀ (cfg : ChangeDetector) (st : StorageState) (fs : FileSystem) (now : Nat)
         (path : String),
       fs.lookup path = none →
       get_document_by_path st path = none →
       detect_change cfg st fs now path = .ok (st, none)) := by
  constructor
  · intro cfg st fs now path doc hfs hdoc
    unfold detect_change
    simp only [hfs, hdoc]
    rfl
  · intro cfg st fs now path hfs hdoc
    unfold detect_change
    simp only [hfs, hdoc]

/-- C9 witness: deleting the tracked a.txt from disk and re-running
detection produces deleted Version 2 of size 0 with previous_hash "hello"
and the bumped document row. -/
theorem missing_path_deletion_spec_witness :
    detect_change cfgEx stTracked fsGone 9 "a.txt" = .ok (stDeleted, some evDeleted) :=
  missing_path_deletion_spec.1 cfgEx stTracked fsGone 9 "a.txt" docTracked rfl rfl

/-- C10: the batch loop counts every processed file in at most one of the
successful / failed lists, so success_count + failure_count never exceeds
total_files; but the claimed strict inequality for an unchanged file fails:
because every track call raises AttributeError (missing
detector.max_file_size_mb), a directory holding one already-tracked
unchanged file yields that file in failed with error_type "unknown" — not
in neither list — making success_count + failure_count equal to
total_files. -/
theorem batch_counts_bound_and_unchanged_lands_failed :
    (∀ (cfg : ChangeDetector) (st : StorageState) (fs : FileSystem) (now : Nat)
       (files : List String) (on_error : String) (st' : StorageState) (br : BatchResult),
       track_directory cfg st fs now true true files on_error = .ok (st', br) →
       br.success_count + br.failure_count ≤ br.total_files)
    ∧ track_directory cfgEx stTracked fsHello 3 true true ["a.txt"] "continue"
        = .ok (stTracked, ⟨[], [⟨"a.txt", "unknown"⟩], 1⟩) := by
  constructor
  · intro cfg st fs now files on_error st' br h
    unfold track_directory at h
    simp only [not_true, if_false] at h
    injection h with h
    injection h with h1 h2
    subst h2
    have := go_counts_bound cfg fs now on_error files st [] []
    simp only [BatchResult.success_count, BatchResult.failure_count]
    simpa using this
  · rfl

/-- C10 witness: the count bound applied to the concrete one-file batch run
(whose unchanged file the code records as failed). -/
theorem batch_counts_bound_witness :
    (⟨[], [⟨"a.txt", "unknown"⟩], 1⟩ : BatchResult).success_count
      + (⟨[], [⟨"a.txt", "unknown"⟩], 1⟩ : BatchResult).failure_count
      ≤ (⟨[], [⟨"a.txt", "unknown"⟩], 1⟩ : BatchResult).total_files :=
  batch_counts_bound_and_unchanged_lands_failed.1 cfgEx stTracked fsHello 3 ["a.txt"]
    "continue" stTracked _ batch_counts_bound_and_unchanged_lands_failed.2
